import Mathlib

/-!
# Verification of the PPIXELTABLE multimodal demo (`src/main.py`)

Shallow embedding of the data/retrieval pipeline of `src/main.py`:
the chunk retrieval and context construction of `ask_question`
(lines 216–218), the prompt strings (lines 224–230 and 241–246), the
QA-log insertion and answer extraction (lines 248–250), the image
upload / vision-description pipeline of `upload_image` (lines 257–274)
with the computed column declared in `init_pixeltable` (lines 61–66),
the document upload error handling of `upload_doc` (lines 202–208),
and the `TABLES` cache of `get_tables` (lines 71–79).

External collaborators (the pixeltable similarity index, the Gemini
generation endpoint, the vision model) are opaque in the source; where
a claim depends on their behaviour the corresponding definition is
modelled from the spec (`spec.md` §4.2–§4.4) and marked as such in its
doc comment.
-/

namespace PixelTable

/-- Similarity scores are abstracted as rationals (the spec treats the
similarity function as an opaque `embed`/score collaborator, higher =
more relevant). -/
abbrev Score := ℚ

/-- One scored chunk as produced by the retrieval step: its similarity
score to the query, its original insertion index in the `doc_chunks`
view, and its text. -/
structure Scored where
  score : Score
  idx : ℕ
  text : String
deriving DecidableEq, Repr

/-- Modelled from the spec: the order realised by
`chunks.order_by(sim, asc=False)` (src/main.py line 217), per spec §4.2:
"top `k` by descending score, ties broken by original insertion order
(earlier wins)". `rankLE a b` holds when `a` may come no later than `b`. -/
def rankLE (a b : Scored) : Prop :=
  b.score < a.score ∨ (a.score = b.score ∧ a.idx ≤ b.idx)

instance : DecidableRel rankLE := fun a b => by
  unfold rankLE; infer_instance

instance : IsTotal Scored rankLE where
  total a b := by
    rcases lt_trichotomy a.score b.score with h | h | h
    · exact Or.inr (Or.inl h)
    · rcases Nat.le_total a.idx b.idx with hi | hi
      · exact Or.inl (Or.inr ⟨h, hi⟩)
      · exact Or.inr (Or.inr ⟨h.symm, hi⟩)
    · exact Or.inl (Or.inl h)

instance : IsTrans Scored rankLE where
  trans a b c hab hbc := by
    rcases hab with hab | ⟨hab, hab'⟩
    · rcases hbc with hbc | ⟨hbc, _⟩
      · exact Or.inl (hbc.trans hab)
      · exact Or.inl (hbc ▸ hab)
    · rcases hbc with hbc | ⟨hbc, hbc'⟩
      · exact Or.inl (hab ▸ hbc)
      · exact Or.inr ⟨hab.trans hbc, hab'.trans hbc'⟩

/-- The chunks of the `doc_chunks` view scored against a query:
each chunk text is paired with its insertion index (`List.enum`) and
its similarity score `sim q text`. The similarity function `sim` is the
opaque embedding collaborator of spec §6. -/
def scoredChunks (sim : String → String → Score) (q : String)
    (chunks : List String) : List Scored :=
  chunks.enum.map (fun p => ⟨sim q p.2, p.1, p.2⟩)

/-- Modelled from the spec: `retrieveTopK` (spec §4.2), realising
`chunks.order_by(sim, asc=False).limit(k)` of src/main.py line 217:
sort all chunks by descending score with insertion-order tie-break and
keep the first `k`.  On an empty index it returns the empty sequence
(the policy the application exhibits, cf. spec §8). -/
def retrieveTopK (sim : String → String → Score) (q : String) (k : ℕ)
    (chunks : List String) : List Scored :=
  (List.insertionSort rankLE (scoredChunks sim q chunks)).take k

/-- src/main.py line 218:
`context_text = "\n".join([row['text'] for row in context_rows])`. -/
def contextText (rows : List Scored) : String :=
  String.intercalate "\n" (rows.map Scored.text)

/-- src/main.py lines 224–230: the f-string assigned to the local
variable `prompt`.  This string is built but never used afterwards —
no later line of `ask_question` mentions `prompt`. -/
def unusedPrompt (context_text question : String) : String :=
  "\n    Context: " ++ context_text ++ "\n    \n    Question: " ++ question
    ++ "\n    \n    Answer concisely based on the context.\n    "

/-- src/main.py lines 241–246: the `contents` expression of the
`answer` computed column of the `qa_log` table,
`"Question: " + qa_table.question + "\nContext: " + qa_table.context`.
This is the prompt actually passed to the generation model when a row
is inserted. -/
def sentPrompt (question context : String) : String :=
  "Question: " ++ question ++ "\nContext: " ++ context

/-- A row of the `qa_log` table (src/main.py line 240 plus the
computed `answer` column). -/
structure QARecord where
  question : String
  context : String
  answer : String
deriving DecidableEq, Repr

/-- Typed failure of the external generation call (spec §7:
`GenerationError`, a specialization of `ExternalCallError`). -/
inductive GenerationError where
  | timeout
  | apiError (msg : String)
deriving DecidableEq, Repr

/-- The prompt `ask_question` sends for question `q` against the given
index: the sent-prompt of the question and the context built from the
top-3 retrieval (src/main.py lines 216–218 and 241–246). -/
def promptSent (sim : String → String → Score) (chunks : List String)
    (q : String) : String :=
  sentPrompt q (contextText (retrieveTopK sim q 3 chunks))

/-- The body of `ask_question` (src/main.py lines 211–250) after the
index state is fixed.  `gen` is the external generation oracle; it
takes the running call counter (so distinct calls may answer
differently) and the prompt.  Modelled from the spec for the parts that
live in pixeltable: per spec §4.4/§7 a failing generation call
propagates as `GenerationError` and persists no QARecord; on success
the new row is appended and `tail(1)` (line 249) reads it back.
Returns (result, qa_log after, call counter after). -/
def askQuestion (sim : String → String → Score)
    (gen : ℕ → String → Except GenerationError String)
    (chunks : List String) (q : String)
    (log : List QARecord) (calls : ℕ) :
    Except GenerationError String × List QARecord × ℕ :=
  let ctx := contextText (retrieveTopK sim q 3 chunks)
  match gen calls (sentPrompt q ctx) with
  | .error e => (.error e, log, calls + 1)
  | .ok ans =>
      (.ok ans, log ++ [{ question := q, context := ctx, answer := ans }],
        calls + 1)

/-- A row of the `images` table: the input image (identified by its
storage path, src/main.py line 57) and the `vision_description`
computed column declared in `init_pixeltable`
(src/main.py lines 61–66). -/
structure ImageRow where
  input_image : String
  vision_description : String
deriving DecidableEq, Repr

/-- State of the image pipeline: the `images` table rows in insertion
order, together with the log of outbound vision-model calls — each
call is the pair (contents, model) passed to `gemini.generate_content`
(src/main.py lines 62–65). -/
structure ImagesState where
  rows : List ImageRow
  visionCalls : List (String × String)
deriving DecidableEq, Repr

/-- The body of `upload_image` (src/main.py lines 257–274) after the
temp file is written: `images.insert` appends one row, which evaluates
the `vision_description` computed column by exactly one call
`vision path "gemini-2.0-flash"` (modelled from the spec §4.3: the
computed-column evaluation inside pixeltable is synchronous and
happens once, at insertion); then `tail(1)` (line 269) reads the last
row's description, falling back to "Analysis failed." on an empty
result (line 270).  Returns (state after, rendered description). -/
def uploadImage (vision : String → String → String) (st : ImagesState)
    (path : String) : ImagesState × String :=
  let desc := vision path "gemini-2.0-flash"
  let st' : ImagesState :=
    { rows := st.rows ++ [{ input_image := path, vision_description := desc }],
      visionCalls := st.visionCalls ++ [(path, "gemini-2.0-flash")] }
  (st', match st'.rows.getLast? with
        | some r => r.vision_description
        | none => "Analysis failed.")

/-- The try/except of `upload_doc` (src/main.py lines 202–206): the
outcome of `tables['docs'].insert` is either success or an exception
carrying a message `str(e)`; the handler catches every exception and
builds the status message. -/
def uploadDocMsg (insertResult : Except String Unit) (filename : String) :
    String :=
  match insertResult with
  | .ok _ => "Processed " ++ filename
  | .error e => "Error: " ++ e

/-- src/main.py line 208: the response is the template with the string
"Pixeltable Multimodal" replaced by `"Status: " ++ msg`; the status
text of the response is therefore `"Status: " ++ msg`. -/
def uploadDocStatus (insertResult : Except String Unit)
    (filename : String) : String :=
  "Status: " ++ uploadDocMsg insertResult filename

/-- The triple of handles returned by `init_pixeltable`
(src/main.py line 68): docs, chunks, images.  The handles themselves
are opaque; the cache logic of `get_tables` does not inspect them. -/
structure Tables (H : Type) where
  docs : H
  chunks : H
  images : H
deriving DecidableEq, Repr

/-- Process-wide state behind `get_tables`: the module-level `TABLES`
dict (src/main.py line 71), empty (`none`) until first populated, plus
a counter of how many times `init_pixeltable` has run. -/
structure AppState (H : Type) where
  tables : Option (Tables H)
  initCalls : ℕ
deriving DecidableEq, Repr

/-- `get_tables` (src/main.py lines 73–79): if the `TABLES` cache is
empty, run `init_pixeltable` (whose result is the parameter `init`)
and populate it; otherwise return the cached handles.  Returns
(handles, state after). -/
def getTables {H : Type} (init : Tables H) (st : AppState H) :
    Tables H × AppState H :=
  match st.tables with
  | some t => (t, st)
  | none => (init, { tables := some init, initCalls := st.initCalls + 1 })

/-- `n` successive calls of `get_tables`, threading the process
state. -/
def getTablesIter {H : Type} (init : Tables H) : ℕ → AppState H → AppState H
  | 0, st => st
  | n + 1, st => getTablesIter init n (getTables init st).2

/-! ### Helper lemmas -/

/-- Unfolding lemma for the accumulator of `String.intercalate`. -/
theorem intercalate_go_append (s x : String) :
    ∀ (l : List String) (y : String),
      String.intercalate.go (x ++ y) s l = x ++ String.intercalate.go y s l
  | [], y => rfl
  | a :: as, y => by
    show String.intercalate.go (x ++ y ++ s ++ a) s as
        = x ++ String.intercalate.go (y ++ s ++ a) s as
    rw [String.append_assoc, String.append_assoc,
      intercalate_go_append s x as (y ++ (s ++ a)), ← String.append_assoc y s a]

/-- The empty retrieval yields the empty context string. -/
theorem contextText_nil : contextText [] = "" := rfl

/-- The context string puts each retrieved text on its own line:
the first text is followed, when more texts follow, by a newline and
the context of the rest. -/
theorem contextText_cons (a : Scored) (l : List Scored) :
    contextText (a :: l)
      = a.text ++ (if l = [] then "" else "\n" ++ contextText l) := by
  cases l with
  | nil =>
      show String.intercalate.go a.text "\n" []
          = a.text ++ (if ([] : List Scored) = [] then "" else "\n" ++ contextText [])
      simp [String.intercalate.go]
  | cons b bs =>
      show String.intercalate.go (a.text ++ "\n" ++ b.text) "\n" (bs.map Scored.text)
          = a.text ++ ("\n" ++ contextText (b :: bs))
      rw [String.append_assoc,
        intercalate_go_append "\n" a.text (bs.map Scored.text) ("\n" ++ b.text),
        intercalate_go_append "\n" "\n" (bs.map Scored.text) b.text]
      rfl

/-- The retrieval result is sorted in the rank order: descending score
with insertion-order tie-break. -/
theorem sorted_retrieveTopK (sim : String → String → Score) (q : String)
    (k : ℕ) (chunks : List String) :
    List.Sorted rankLE (retrieveTopK sim q k chunks) :=
  List.Pairwise.sublist (List.take_sublist k _)
    (List.sorted_insertionSort rankLE (scoredChunks sim q chunks))

/-- The insertion indices carried through scoring are exactly the
positions of the chunks, hence pairwise distinct. -/
theorem nodup_idx_scoredChunks (sim : String → String → Score)
    (q : String) (chunks : List String) :
    ((scoredChunks sim q chunks).map Scored.idx).Nodup := by
  have hmap : (scoredChunks sim q chunks).map Scored.idx
      = chunks.enum.map Prod.fst := by
    simp only [scoredChunks, List.map_map]
    rfl
  rw [hmap]
  exact List.nodup_enum_map_fst chunks

/-- The insertion indices of the retrieval result are pairwise
distinct. -/
theorem nodup_idx_retrieveTopK (sim : String → String → Score)
    (q : String) (k : ℕ) (chunks : List String) :
    ((retrieveTopK sim q k chunks).map Scored.idx).Nodup := by
  have hperm :
      List.Perm
        ((List.insertionSort rankLE (scoredChunks sim q chunks)).map Scored.idx)
        ((scoredChunks sim q chunks).map Scored.idx) :=
    (List.perm_insertionSort rankLE _).map Scored.idx
  have hnd :
      ((List.insertionSort rankLE (scoredChunks sim q chunks)).map
        Scored.idx).Nodup :=
    hperm.nodup_iff.mpr (nodup_idx_scoredChunks sim q chunks)
  have hsub :
      List.Sublist ((retrieveTopK sim q k chunks).map Scored.idx)
        ((List.insertionSort rankLE (scoredChunks sim q chunks)).map
          Scored.idx) :=
    (List.take_sublist k _).map Scored.idx
  exact hsub.nodup hnd

/-- In a list sorted by `rankLE` whose insertion indices are pairwise
distinct, a score tie is resolved strictly by insertion index. -/
theorem idx_lt_of_sorted_tie {l : List Scored}
    (hs : List.Sorted rankLE l) (hnd : (l.map Scored.idx).Nodup)
    {i j : ℕ} (hi : i < l.length) (hj : j < l.length) (hij : i < j)
    (hscore : (l.get ⟨i, hi⟩).score = (l.get ⟨j, hj⟩).score) :
    (l.get ⟨i, hi⟩).idx < (l.get ⟨j, hj⟩).idx := by
  have hrel : rankLE (l.get ⟨i, hi⟩) (l.get ⟨j, hj⟩) :=
    hs.rel_get_of_lt (a := ⟨i, hi⟩) (b := ⟨j, hj⟩) hij
  rcases hrel with h | ⟨_, hle⟩
  · exact absurd hscore (ne_of_gt h)
  · refine lt_of_le_of_ne hle (fun heqidx => ?_)
    have hgi : (l.map Scored.idx).get ⟨i, by simpa using hi⟩
        = (l.map Scored.idx).get ⟨j, by simpa using hj⟩ := by
      simp only [List.get_eq_getElem, List.getElem_map]
      exact heqidx
    have h2 := hnd.get_inj_iff.mp hgi
    have : i = j := congrArg Fin.val h2
    omega

/-- The scored entry of the chunk at position `i` — its score, its
insertion index `i`, its text — is a member of the scored chunk
list. -/
theorem scored_entry_mem (sim : String → String → Score) (q : String)
    (chunks : List String) (i : ℕ) (hi : i < chunks.length) :
    (⟨sim q (chunks.get ⟨i, hi⟩), i, chunks.get ⟨i, hi⟩⟩ : Scored)
      ∈ scoredChunks sim q chunks := by
  apply List.mem_iff_getElem.mpr
  refine ⟨i, ?_, ?_⟩
  · simpa [scoredChunks] using hi
  · simp [scoredChunks, List.enum, List.get_eq_getElem]

/-- In a list sorted by `rankLE`, whenever `b` survives `take k` and
`a` ranks strictly before `b` (so `rankLE b a` fails), `a` survives
`take k` as well: the cutoff can never drop `a` while keeping `b`. -/
theorem mem_take_of_rank_lt {s : List Scored} {k : ℕ}
    (hs : List.Sorted rankLE s) {a b : Scored}
    (ha : a ∈ s) (hb : b ∈ s.take k) (hnot : ¬ rankLE b a) :
    a ∈ s.take k := by
  obtain ⟨pa, hpa, hga⟩ := List.mem_iff_getElem.mp ha
  obtain ⟨pb, hpb, hgb⟩ := List.mem_iff_getElem.mp hb
  have hpbk : pb < k := by
    rw [List.length_take] at hpb; omega
  have hpbs : pb < s.length := by
    rw [List.length_take] at hpb; omega
  have hsb : s.get ⟨pb, hpbs⟩ = b := by
    have h1 : (s.take k)[pb]? = s[pb]? := List.getElem?_take_of_lt hpbk
    rw [List.getElem?_eq_getElem hpb, List.getElem?_eq_getElem hpbs] at h1
    have h2 := Option.some_inj.mp h1
    rw [List.get_eq_getElem, ← h2]
    exact hgb
  have hpab : pa < pb := by
    rcases Nat.lt_trichotomy pa pb with h | h | h
    · exact h
    · exfalso
      apply hnot
      have hab : a = b := by
        subst h
        rw [← hga, ← hsb, List.get_eq_getElem]
      rw [hab]
      exact Or.inr ⟨rfl, Nat.le_refl _⟩
    · exfalso
      apply hnot
      have hr := hs.rel_get_of_lt (a := ⟨pb, hpbs⟩) (b := ⟨pa, hpa⟩) h
      rw [hsb] at hr
      rw [List.get_eq_getElem, hga] at hr
      exact hr
  have hpak : pa < k := Nat.lt_trans hpab hpbk
  apply List.mem_iff_getElem?.mpr
  exact ⟨pa, by
    rw [List.getElem?_take_of_lt hpak, List.getElem?_eq_getElem hpa, hga]⟩

/-! ### Claim theorems -/

/-- C1: for every question asked against a fixed non-empty index, the
answering pipeline retrieves at most 3 chunks, ordered by
non-increasing similarity score to the question, and builds the
context by concatenating the retrieved texts in the returned order,
each on its own line, the empty string when nothing is retrieved
(src/main.py lines 216–218, spec §4.2/§4.4). -/
theorem retrieveTopK_le_three_sorted_and_context
    (sim : String → String → Score) (q : String) (chunks : List String)
    (_hne : chunks ≠ []) :
    (retrieveTopK sim q 3 chunks).length ≤ 3 ∧
    List.Pairwise (fun a b : Scored => b.score ≤ a.score)
      (retrieveTopK sim q 3 chunks) ∧
    (∀ (a : Scored) (l : List Scored),
      contextText (a :: l)
        = a.text ++ (if l = [] then "" else "\n" ++ contextText l)) ∧
    contextText [] = "" := by
  refine ⟨?_, ?_, contextText_cons, contextText_nil⟩
  · unfold retrieveTopK
    rw [List.length_take]
    exact min_le_left _ _
  · refine List.Pairwise.imp ?_ (sorted_retrieveTopK sim q 3 chunks)
    intro a b h
    rcases h with h | ⟨h, _⟩
    · exact le_of_lt h
    · exact le_of_eq h.symm

/-- Witness for C1 at a concrete non-empty index. -/
theorem retrieveTopK_le_three_sorted_and_context_witness :
    (["alpha", "beta"] : List String) ≠ [] ∧
    ((retrieveTopK (fun _ _ => 0) "q" 3 ["alpha", "beta"]).length ≤ 3 ∧
     List.Pairwise (fun a b : Scored => b.score ≤ a.score)
       (retrieveTopK (fun _ _ => 0) "q" 3 ["alpha", "beta"]) ∧
     (∀ (a : Scored) (l : List Scored),
       contextText (a :: l)
         = a.text ++ (if l = [] then "" else "\n" ++ contextText l)) ∧
     contextText [] = "") :=
  ⟨by decide,
   retrieveTopK_le_three_sorted_and_context (fun _ _ => 0) "q"
     ["alpha", "beta"] (by decide)⟩

/-- C4: when two chunks tie on similarity score, `retrieveTopK` breaks
the tie by original insertion order with the earlier-inserted chunk
winning, in both senses: at the top-k cutoff, if the later-inserted of
two equally-scored chunks is retrieved at all then the earlier-inserted
one is retrieved too (the cutoff can never keep the later one while
dropping the earlier one), and within the returned sequence the
earlier-inserted chunk appears strictly before the later-inserted one
(spec §4.2 tie-break, realised for `order_by(sim, asc=False).limit(k)`
of src/main.py line 217). -/
theorem retrieveTopK_tie_earlier_insertion_wins
    (sim : String → String → Score) (q : String) (k : ℕ)
    (chunks : List String) :
    (∀ (i j : ℕ) (hi : i < chunks.length) (hj : j < chunks.length),
      i < j →
      sim q (chunks.get ⟨i, hi⟩) = sim q (chunks.get ⟨j, hj⟩) →
      (⟨sim q (chunks.get ⟨j, hj⟩), j, chunks.get ⟨j, hj⟩⟩ : Scored)
          ∈ retrieveTopK sim q k chunks →
      (⟨sim q (chunks.get ⟨i, hi⟩), i, chunks.get ⟨i, hi⟩⟩ : Scored)
          ∈ retrieveTopK sim q k chunks) ∧
    (∀ (i j : ℕ) (hi : i < (retrieveTopK sim q k chunks).length)
        (hj : j < (retrieveTopK sim q k chunks).length),
      i < j →
      ((retrieveTopK sim q k chunks).get ⟨i, hi⟩).score
        = ((retrieveTopK sim q k chunks).get ⟨j, hj⟩).score →
      ((retrieveTopK sim q k chunks).get ⟨i, hi⟩).idx
        < ((retrieveTopK sim q k chunks).get ⟨j, hj⟩).idx) := by
  constructor
  · intro i j hi hj hij hscore hmem
    have hmemA :
        (⟨sim q (chunks.get ⟨i, hi⟩), i, chunks.get ⟨i, hi⟩⟩ : Scored)
          ∈ List.insertionSort rankLE (scoredChunks sim q chunks) :=
      (List.perm_insertionSort rankLE _).mem_iff.mpr
        (scored_entry_mem sim q chunks i hi)
    refine mem_take_of_rank_lt
      (List.sorted_insertionSort rankLE (scoredChunks sim q chunks))
      hmemA hmem ?_
    intro hcon
    rcases hcon with h | ⟨_, h⟩
    · exact absurd h (by rw [hscore]; exact lt_irrefl _)
    · exact absurd (show j ≤ i from h) (by omega)
  · intro i j hi hj hij hscore
    exact idx_lt_of_sorted_tie (sorted_retrieveTopK sim q k chunks)
      (nodup_idx_retrieveTopK sim q k chunks) hi hj hij hscore

/-- Witness for C4: two equally-scored chunks, both retrieved with
k = 2 — the later-inserted one being retrieved forces the
earlier-inserted one into the result, and ahead of it. -/
theorem retrieveTopK_tie_earlier_insertion_wins_witness :
    (⟨0, 0, "alpha"⟩ : Scored)
        ∈ retrieveTopK (fun _ _ => 0) "q" 2 ["alpha", "beta"] ∧
    ((retrieveTopK (fun _ _ => 0) "q" 2 ["alpha", "beta"]).get
        ⟨0, by decide⟩).idx
      < ((retrieveTopK (fun _ _ => 0) "q" 2 ["alpha", "beta"]).get
        ⟨1, by decide⟩).idx :=
  ⟨(retrieveTopK_tie_earlier_insertion_wins (fun _ _ => 0) "q" 2
      ["alpha", "beta"]).1 0 1 (by decide) (by decide) (by decide)
      (by decide) (by decide),
   (retrieveTopK_tie_earlier_insertion_wins (fun _ _ => 0) "q" 2
      ["alpha", "beta"]).2 0 1 (by decide) (by decide) (by decide)
      (by decide)⟩

/-- C2 counterexample: the claim says the prompt actually sent embeds
context and question verbatim AND instructs the model to answer
concisely using only the supplied context.  At question "q" and
context "c" the prompt actually sent (the `contents` expression of the
`answer` computed column, src/main.py lines 241–246) is
"Question: q\nContext: c": it contains no occurrence of "concisely"
and no occurrence of "only", i.e. no conciseness or only-the-context
instruction.  The instruction sentence exists only in the local
variable `prompt` (src/main.py lines 224–230), which is never used
after its assignment. -/
theorem sentPrompt_lacks_instruction_cex :
    sentPrompt "q" "c" = "Question: q\nContext: c" ∧
    ¬ ("concisely".data <:+: (sentPrompt "q" "c").data) ∧
    ¬ ("only".data <:+: (sentPrompt "q" "c").data) ∧
    ("Answer concisely based on the context.".data
      <:+: (unusedPrompt "c" "q").data) := by
  refine ⟨by decide, by decide, by decide, by decide⟩

/-- C2 amended: for every question and retrieved context, the prompt
actually sent to the external text-generation model embeds the context
string and the question string verbatim, but carries no instruction to
answer concisely using only the supplied context — that instruction
appears only in an unused local prompt string that is never sent
(src/main.py lines 224–230 versus 241–246). -/
theorem sentPrompt_embeds_question_context_verbatim (q c : String) :
    q.data <:+: (sentPrompt q c).data ∧
    c.data <:+: (sentPrompt q c).data ∧
    "Answer concisely based on the context.".data
      <:+: (unusedPrompt c q).data := by
  refine ⟨?_, ?_, ?_⟩
  · exact ⟨"Question: ".data, ("\nContext: " ++ c).data, by
      simp [sentPrompt]⟩
  · exact ⟨("Question: " ++ q ++ "\nContext: ").data, [], by
      simp [sentPrompt]⟩
  · refine ⟨("\n    Context: " ++ c ++ "\n    \n    Question: " ++ q
        ++ "\n    \n    ").data, "\n    ".data, ?_⟩
    have hsplit :
        ("\n    \n    Answer concisely based on the context.\n    " : String)
          = "\n    \n    "
            ++ "Answer concisely based on the context." ++ "\n    " := by
      decide
    simp only [unusedPrompt, hsplit, String.data_append, List.append_assoc]

/-- C3: when the external generation call fails, `ask_question`
surfaces the `GenerationError` to its caller, persists no QARecord,
and has attempted the external call exactly once — the call counter
advances by exactly one and the source contains no retry
(src/main.py lines 237–250, spec §4.4/§7). -/
theorem askQuestion_generation_failure_propagates
    (sim : String → String → Score)
    (gen : ℕ → String → Except GenerationError String)
    (chunks : List String) (q : String) (log : List QARecord) (calls : ℕ)
    (e : GenerationError)
    (hfail : gen calls (promptSent sim chunks q) = .error e) :
    askQuestion sim gen chunks q log calls = (.error e, log, calls + 1) := by
  have h : gen calls
      (sentPrompt q (contextText (retrieveTopK sim q 3 chunks))) = .error e :=
    hfail
  simp only [askQuestion]
  rw [h]

/-- Witness for C3: a generation oracle that times out makes
`askQuestion` return the error, leave the log empty, and count one
single call. -/
theorem askQuestion_generation_failure_propagates_witness :
    askQuestion (fun _ _ => 0) (fun _ _ => .error .timeout) [] "q" [] 0
      = (.error .timeout, [], 1) :=
  askQuestion_generation_failure_propagates (fun _ _ => 0)
    (fun _ _ => .error .timeout) [] "q" [] 0 .timeout rfl

/-- C5: after uploading an image, the rendered description is the text
the vision model produced for that exact most-recently inserted image,
and a subsequent upload of a different image makes the rendered
description the new image's description, not the old one
(src/main.py lines 266–270, `insert` followed by `tail(1)`). -/
theorem uploadImage_returns_latest_description
    (vision : String → String → String) (st : ImagesState) (p1 p2 : String)
    (hdiff : vision p1 "gemini-2.0-flash" ≠ vision p2 "gemini-2.0-flash") :
    (uploadImage vision st p1).2 = vision p1 "gemini-2.0-flash" ∧
    (uploadImage vision (uploadImage vision st p1).1 p2).2
      = vision p2 "gemini-2.0-flash" ∧
    (uploadImage vision (uploadImage vision st p1).1 p2).2
      ≠ (uploadImage vision st p1).2 := by
  refine ⟨?_, ?_, ?_⟩
  · simp [uploadImage, List.getLast?_concat]
  · simp [uploadImage, List.getLast?_concat]
  · simpa [uploadImage, List.getLast?_concat] using hdiff.symm

/-- Witness for C5 with the vision model returning each image's own
path as its description. -/
theorem uploadImage_returns_latest_description_witness :
    (uploadImage (fun p _ => p) ⟨[], []⟩ "a").2 = "a" ∧
    (uploadImage (fun p _ => p)
        (uploadImage (fun p _ => p) ⟨[], []⟩ "a").1 "b").2 = "b" ∧
    (uploadImage (fun p _ => p)
        (uploadImage (fun p _ => p) ⟨[], []⟩ "a").1 "b").2
      ≠ (uploadImage (fun p _ => p) ⟨[], []⟩ "a").2 :=
  uploadImage_returns_latest_description (fun p _ => p) ⟨[], []⟩ "a" "b"
    (by decide)

/-- C6: for a fixed index state and fixed question, everything except
the external generation response is deterministic: two runs whose
generation oracles agree on the single prompt the pipeline sends
produce the same result and the same persisted log — steps 1–3
(retrieval, context concatenation, prompt construction) depend only on
the index state and the question (src/main.py lines 216–218). -/
theorem askQuestion_deterministic_given_generation
    (sim : String → String → Score)
    (gen1 gen2 : ℕ → String → Except GenerationError String)
    (chunks : List String) (q : String) (log : List QARecord) (c1 c2 : ℕ)
    (hgen : gen1 c1 (promptSent sim chunks q)
          = gen2 c2 (promptSent sim chunks q)) :
    (askQuestion sim gen1 chunks q log c1).1
      = (askQuestion sim gen2 chunks q log c2).1 ∧
    (askQuestion sim gen1 chunks q log c1).2.1
      = (askQuestion sim gen2 chunks q log c2).2.1 := by
  simp only [promptSent] at hgen
  simp only [askQuestion]
  rw [hgen]
  cases gen2 c2 (sentPrompt q (contextText (retrieveTopK sim q 3 chunks))) <;>
    simp

/-- Witness for C6: two oracles answering identically on the sent
prompt, at different call counters, give identical observable runs. -/
theorem askQuestion_deterministic_given_generation_witness :
    (askQuestion (fun _ _ => 0) (fun _ _ => .ok "a") [] "q" [] 0).1
      = (askQuestion (fun _ _ => 0) (fun _ _ => .ok "a") [] "q" [] 7).1 ∧
    (askQuestion (fun _ _ => 0) (fun _ _ => .ok "a") [] "q" [] 0).2.1
      = (askQuestion (fun _ _ => 0) (fun _ _ => .ok "a") [] "q" [] 7).2.1 :=
  askQuestion_deterministic_given_generation (fun _ _ => 0)
    (fun _ _ => .ok "a") (fun _ _ => .ok "a") [] "q" [] 0 7 rfl

/-- C7: asking any question — the empty question included — against an
empty index never crashes: the retrieval returns no chunks, the
context is the empty string, and the pipeline returns the answer the
model generates for the empty context (src/main.py lines 216–218 with
an empty `doc_chunks` view; spec §8). -/
theorem askQuestion_empty_index_no_crash
    (sim : String → String → Score)
    (gen : ℕ → String → Except GenerationError String)
    (q ans : String) (log : List QARecord) (calls : ℕ)
    (hok : gen calls (sentPrompt q "") = .ok ans) :
    retrieveTopK sim q 3 [] = [] ∧
    contextText (retrieveTopK sim q 3 []) = "" ∧
    askQuestion sim gen [] q log calls
      = (.ok ans, log ++ [{ question := q, context := "", answer := ans }],
          calls + 1) := by
  refine ⟨rfl, rfl, ?_⟩
  simp only [askQuestion]
  rw [show contextText (retrieveTopK sim q 3 []) = "" from rfl, hok]

/-- Witness for C7 at the empty question against the empty index. -/
theorem askQuestion_empty_index_no_crash_witness :
    retrieveTopK (fun _ _ => 0) "" 3 [] = [] ∧
    contextText (retrieveTopK (fun _ _ => 0) "" 3 []) = "" ∧
    askQuestion (fun _ _ => 0) (fun _ _ => .ok "ans") [] "" [] 0
      = (.ok "ans",
          [] ++ [{ question := "", context := "", answer := "ans" }], 1) :=
  askQuestion_empty_index_no_crash (fun _ _ => 0) (fun _ _ => .ok "ans")
    "" "ans" [] 0 rfl

/-- C8: each image insertion triggers exactly one external vision call,
whose arguments are the image and the model identifier
"gemini-2.0-flash" and nothing else; every stored row carries exactly
one vision description, equal to the model's output for its own image,
and previously stored rows are left untouched — descriptions are never
recomputed (src/main.py lines 61–66 and 266, spec §4.3). -/
theorem uploadImage_one_vision_call_per_insert
    (vision : String → String → String) (st : ImagesState) (p : String)
    (hinv : ∀ r ∈ st.rows,
      r.vision_description = vision r.input_image "gemini-2.0-flash") :
    (uploadImage vision st p).1.rows
      = st.rows ++ [{ input_image := p,
                      vision_description := vision p "gemini-2.0-flash" }] ∧
    (uploadImage vision st p).1.visionCalls
      = st.visionCalls ++ [(p, "gemini-2.0-flash")] ∧
    ∀ r ∈ (uploadImage vision st p).1.rows,
      r.vision_description = vision r.input_image "gemini-2.0-flash" := by
  refine ⟨rfl, rfl, ?_⟩
  intro r hr
  simp only [uploadImage, List.mem_append, List.mem_singleton] at hr
  rcases hr with hr | hr
  · exact hinv r hr
  · subst hr; rfl

/-- Witness for C8 from the empty image table. -/
theorem uploadImage_one_vision_call_per_insert_witness :
    (uploadImage (fun p _ => "desc-" ++ p) ⟨[], []⟩ "img").1.rows
      = [] ++ [{ input_image := "img", vision_description := "desc-img" }] ∧
    (uploadImage (fun p _ => "desc-" ++ p) ⟨[], []⟩ "img").1.visionCalls
      = [] ++ [("img", "gemini-2.0-flash")] ∧
    ∀ r ∈ (uploadImage (fun p _ => "desc-" ++ p) ⟨[], []⟩ "img").1.rows,
      r.vision_description = "desc-" ++ r.input_image :=
  uploadImage_one_vision_call_per_insert (fun p _ => "desc-" ++ p)
    ⟨[], []⟩ "img" (by simp)

/-- C9: `upload_doc` never propagates an insertion failure: an
exception with message `e` is caught and produces the status text
"Error: " followed by `e`, while a successful insert produces
"Processed " followed by the filename (src/main.py lines 202–208). -/
theorem uploadDocMsg_catches_insert_errors (e fn : String) :
    uploadDocMsg (.error e) fn = "Error: " ++ e ∧
    "Error: ".data <+: (uploadDocMsg (.error e) fn).data ∧
    uploadDocMsg (.ok ()) fn = "Processed " ++ fn ∧
    uploadDocStatus (.error e) fn = "Status: " ++ ("Error: " ++ e) := by
  exact ⟨rfl, ⟨e.data, by simp [uploadDocMsg]⟩, rfl, rfl⟩

/-- Helper for C10: once the `TABLES` cache is populated, any number
of further `get_tables` calls leaves the state unchanged. -/
theorem getTablesIter_cached {H : Type} (init t : Tables H) (c : ℕ) :
    ∀ n, getTablesIter init n { tables := some t, initCalls := c }
      = { tables := some t, initCalls := c }
  | 0 => rfl
  | n + 1 => by
      show getTablesIter init n
          (getTables init { tables := some t, initCalls := c }).2
        = { tables := some t, initCalls := c }
      exact getTablesIter_cached init t c n

/-- C10: `get_tables` is idempotent — the first call initializes the
schema and populates the `TABLES` cache, every later call returns the
cached handles with the state unchanged, and across any number of
calls `init_pixeltable` runs exactly once from a fresh process state
(src/main.py lines 71–79). -/
theorem getTables_init_at_most_once {H : Type} (init : Tables H)
    (st : AppState H) (c n : ℕ) :
    getTables init { tables := none, initCalls := c }
      = (init, { tables := some init, initCalls := c + 1 }) ∧
    getTables init (getTables init st).2
      = ((getTables init st).1, (getTables init st).2) ∧
    getTablesIter init (n + 1) { tables := none, initCalls := 0 }
      = { tables := some init, initCalls := 1 } ∧
    (getTables init st).2.initCalls ≤ st.initCalls + 1 := by
  obtain ⟨tb, ic⟩ := st
  refine ⟨rfl, ?_, ?_, ?_⟩
  · cases tb <;> rfl
  · show getTablesIter init n
        (getTables init { tables := none, initCalls := 0 }).2
      = { tables := some init, initCalls := 1 }
    exact getTablesIter_cached init init 1 n
  · cases tb <;> simp [getTables]

end PixelTable
